import Mathlib

/-!
Verification of the object/value model and evaluator of a small
dynamically-typed expression language (source: `obj_model.py`).

The embedding is shallow and faithful to the Python source:

* Python machine floats held in `Number.value` are modelled as exact
  rationals (`ℚ`); no claim exercises floating-point rounding, and all
  concrete inputs below are small integers, on which float and rational
  arithmetic agree.
* Host-level (Python) exceptions — `TypeError`, `KeyError`,
  `AttributeError`, `ZeroDivisionError`, and the `RecursionError` that the
  host raises on the base class's unbounded `self.visit().op(other.visit())`
  self-recursion — are modelled as explicit `Err` values, as is the
  language's own `abort(...)` diagnostic collaborator.
* Side effects (the interpreter's printed lines) are modelled as an output
  trace `List String` threaded through evaluation; environment mutation is
  modelled by explicit state passing of the active (top) frame.
-/

namespace EchoStar

/-- Python primitive payloads stored in the `value` attribute of atoms:
`float` for `Number`, `bool` for `Boolean`, `str` for `String`, and
`None` for `Null`. -/
inductive PyVal where
  | num (q : ℚ)
  | pbool (b : Bool)
  | pstr (s : String)
  | pnone
deriving DecidableEq

/-- Python truthiness (`bool(x)`), as applied by `Boolean.__init__`:
numeric zero, the empty string and `None` are falsy, all else truthy. -/
def pyTruthy : PyVal → Bool
  | .num q => decide (q ≠ 0)
  | .pbool b => b
  | .pstr s => decide (s ≠ "")
  | .pnone => false

/-- Numeric view of a payload: Python treats `bool` as a number
(`True = 1`, `False = 0`) in arithmetic comparisons and `==`. -/
def pyNumVal : PyVal → Option ℚ
  | .num q => some q
  | .pbool b => some (if b then 1 else 0)
  | .pstr _ => none
  | .pnone => none

/-- Python `==` on primitive payloads: numbers and booleans compare
numerically, strings compare as strings, `None` equals only `None`,
and every other cross-kind comparison is `False` (never an error). -/
def pyEqVal (a b : PyVal) : Bool :=
  match a, b with
  | .pstr x, .pstr y => decide (x = y)
  | .pnone, .pnone => true
  | x, y =>
      match pyNumVal x, pyNumVal y with
      | some p, some q => decide (p = q)
      | _, _ => false

/-- Runtime errors.  `aborted` is the language's own `abort(msg)`
diagnostic collaborator (fatal); the `host*` constructors are uncaught
Python exceptions escaping the interpreter. -/
inductive Err where
  | aborted (msg : String)
  | hostTypeError (msg : String)
  | hostKeyError (key : String)
  | hostAttributeError (msg : String)
  | hostZeroDivisionError
  | hostRecursionError
deriving DecidableEq

/-- Python `a < b` on primitive payloads: numbers/booleans order
numerically, strings order lexicographically, every other combination
raises a host `TypeError`. -/
def pyLtVal (a b : PyVal) : Except Err Bool :=
  match a, b with
  | .pstr x, .pstr y => .ok (decide (x < y))
  | x, y =>
      match pyNumVal x, pyNumVal y with
      | some p, some q => .ok (decide (p < q))
      | _, _ => .error (.hostTypeError "comparison not supported between these operand kinds")

/-- Python `a <= b` on primitive payloads (same domain as `pyLtVal`). -/
def pyLeVal (a b : PyVal) : Except Err Bool :=
  match a, b with
  | .pstr x, .pstr y => .ok (decide (x < y) || decide (x = y))
  | x, y =>
      match pyNumVal x, pyNumVal y with
      | some p, some q => .ok (decide (p ≤ q))
      | _, _ => .error (.hostTypeError "comparison not supported between these operand kinds")

/-- The six comparison methods of `BaseObject` (`lt,gt,le,ge,eq,ne`). -/
inductive CmpOp where
  | cLt | cGt | cLe | cGe | cEq | cNe
deriving DecidableEq

/-- Payload-level semantics of each comparison method: Python computes
`a < b`, `a > b`, … directly on the two payloads. -/
def pyCmpApply : CmpOp → PyVal → PyVal → Except Err Bool
  | .cLt, a, b => pyLtVal a b
  | .cGt, a, b => pyLtVal b a
  | .cLe, a, b => pyLeVal a b
  | .cGe, a, b => pyLeVal b a
  | .cEq, a, b => .ok (pyEqVal a b)
  | .cNe, a, b => .ok (!pyEqVal a b)

/-- Drop the characters of `cs` from both ends of a string — Python
`str.strip(chars)`, as used by `Number.repr` (`.strip(".0")`) and by
`String.__init__` (`.strip("\"'")`). -/
def stripBoth (cs : List Char) (s : String) : String :=
  let l := s.toList.dropWhile (fun c => cs.contains c)
  String.mk ((l.reverse.dropWhile (fun c => cs.contains c)).reverse)

/-- The character set `".0"` stripped by `Number.repr`. -/
def dotZeroChars : List Char := ['.', '0']

/-- The character set `"\"'"` (double quote, single quote) stripped by
`String.__init__`. -/
def quoteChars : List Char := [Char.ofNat 34, Char.ofNat 39]

/-- Host rendering `str(x)` of a float payload.  For an integral float of
moderate magnitude the host renders the decimal digits followed by `".0"`;
that integral case is the only one any theorem below relies on (the host's
shortest-roundtrip rendering of non-integral floats is not modelled — the
fallback branch here renders the exact rational and is never exercised). -/
def pyStrNum (q : ℚ) : String :=
  if q.den = 1 then toString q.num ++ ".0"
  else toString q.num ++ "/" ++ toString q.den

/-- `Number.repr`:
`str(self.value).strip(".0") if self.value % 1 == 0 else str(self.value)`.
(`self.value % 1 == 0` holds exactly for integral floats, i.e. `q.den = 1`.) -/
def numberRepr (q : ℚ) : String :=
  if q.den = 1 then stripBoth dotZeroChars (pyStrNum q) else pyStrNum q

/-- `String.__init__`: the stored payload is `str(value).strip("\"'")` —
all leading and trailing quote characters of the raw text are dropped. -/
def mkStringPayload (raw : String) : String :=
  stripBoth quoteChars raw

/-- Runtime objects (`BaseObject` instances): the four atoms and the three
built-in function objects seeded into the root environment.  (User-defined
functions are modelled separately by `UserDefinedFunction` below; no claim
stores one inside an expression tree.) -/
inductive Obj where
  | number (q : ℚ)
  | boolean (b : Bool)
  | null
  | str (s : String)
  | printFn
  | inputFn
  | randFn
deriving DecidableEq

/-- Python `type(x).__name__`, as interpolated into `abort` messages. -/
def typeName : Obj → String
  | .number _ => "Number"
  | .boolean _ => "Boolean"
  | .null => "Null"
  | .str _ => "String"
  | .printFn => "Print"
  | .inputFn => "Input"
  | .randFn => "RandInt"

/-- The `value` attribute of an object.  Function objects have none:
accessing it raises a host `AttributeError`. -/
def pyValue : Obj → Except Err PyVal
  | .number q => .ok (.num q)
  | .boolean b => .ok (.pbool b)
  | .null => .ok .pnone
  | .str s => .ok (.pstr s)
  | o => .error (.hostAttributeError (typeName o ++ " object has no attribute value"))

/-- `repr()` of an object: `Number.repr` strips `".0"` ends of integral
renderings, `Boolean.repr` is `str(self.value).lower()`, `Null.repr` is
`"null"`, `String` inherits `BaseObject.repr = str(self.value)`, and
built-in functions render as `<built-in function ...>`. -/
def objRepr : Obj → String
  | .number q => numberRepr q
  | .boolean true => "true"
  | .boolean false => "false"
  | .null => "null"
  | .str s => s
  | .printFn => "<built-in function Print>"
  | .inputFn => "<built-in function Input>"
  | .randFn => "<built-in function RandInt>"

/-- Python `str.startswith(p)` (list-level, for definitional transparency). -/
def strStartsWith (p s : String) : Bool := p.toList.isPrefixOf s.toList

/-- The constant-declaring name prefix used by `Env.__setitem__`. -/
def constPrefix : String := "CONST_"

/-- Python `key.removeprefix("CONST_")`: drops the prefix when present,
returns the key unchanged otherwise. -/
def stripConst (k : String) : String :=
  if strStartsWith constPrefix k then String.mk (k.toList.drop 6) else k

/-- Insertion-ordered association list standing for a Python `dict`:
setting an existing key updates it in place, a new key is appended. -/
def listSet : List (String × Obj) → String → Obj → List (String × Obj)
  | [], k, v => [(k, v)]
  | (k0, v0) :: t, k, v =>
      if k = k0 then (k0, v) :: t else (k0, v0) :: listSet t k v

/-- Python `dict` lookup (first — and, for a real dict, only — binding). -/
def listGet : List (String × Obj) → String → Option Obj
  | [], _ => none
  | (k0, v0) :: t, k => if k = k0 then some v0 else listGet t k

/-- The diagnostic line printed when a write to a locked name is rejected. -/
def constMsg : String := "You can\x27t change a constant!"

/-- `Env`: a `dict` of bindings plus the `constants` list of locked names. -/
structure Env where
  entries : List (String × Obj)
  constants : List String
deriving DecidableEq

/-- `Env.__setitem__`: a key already in `constants` is rejected with a
printed diagnostic and no change; a key spelled with the `CONST_` prefix
locks its stripped name; the binding is stored under the stripped key.
Returns the updated environment and the lines printed. -/
def Env.setitem (e : Env) (k : String) (v : Obj) : Env × List String :=
  if k ∈ e.constants then (e, [constMsg])
  else
    ({ entries := listSet e.entries (stripConst k) v,
       constants :=
         if strStartsWith constPrefix k then e.constants ++ [stripConst k]
         else e.constants }, [])

/-- `Env.__getitem__`: plain `dict` lookup of the key as spelled (no
prefix stripping); an absent key raises a host `KeyError`. -/
def Env.getitem (e : Env) (k : String) : Option Obj :=
  listGet e.entries k

/-- `Env.__init__(**kwargs)`: each pair is written through
`__setitem__` in order, starting from an empty frame.  Returns the frame
and any diagnostic lines printed along the way. -/
def Env.initFrom (kvs : List (String × Obj)) : Env × List String :=
  kvs.foldl
    (fun acc kv =>
      let r := acc.1.setitem kv.1 kv.2
      (r.1, acc.2 ++ r.2))
    ({ entries := [], constants := [] }, [])

/-- The root frame `ENV[0]`, seeded with the built-in bindings and special
constants, all declared through the `CONST_` pathway. -/
def rootEnv : Env :=
  (Env.initFrom
    [(constPrefix ++ "print", .printFn),
     (constPrefix ++ "input", .inputFn),
     (constPrefix ++ "rand", .randFn),
     (constPrefix ++ "true", .boolean true),
     (constPrefix ++ "false", .boolean false),
     (constPrefix ++ "null", .null)]).1

/-- The arithmetic methods (`add,sub,mul,div,mod`). -/
inductive ArithOp where
  | aAdd | aSub | aMul | aDiv | aMod
deriving DecidableEq

/-- The operator-tag dispatch classes of `OP_TO_FUNC_MAP`. -/
inductive OpKind where
  | arith (a : ArithOp)
  | cmp (c : CmpOp)
  | andK
  | orK
deriving DecidableEq

/-- `OP_TO_FUNC_MAP`: the closed map from operator tag to method name;
an unmapped tag raises a host `KeyError` in `BinOp.visit`. -/
def opKind? (op : String) : Option OpKind :=
  if op = "+" then some (.arith .aAdd)
  else if op = "-" then some (.arith .aSub)
  else if op = "*" then some (.arith .aMul)
  else if op = "/" then some (.arith .aDiv)
  else if op = "%" then some (.arith .aMod)
  else if op = "==" then some (.cmp .cEq)
  else if op = "!=" then some (.cmp .cNe)
  else if op = "<" then some (.cmp .cLt)
  else if op = ">" then some (.cmp .cGt)
  else if op = "<=" then some (.cmp .cLe)
  else if op = ">=" then some (.cmp .cGe)
  else if op = "&&" then some .andK
  else if op = "||" then some .orK
  else none

/-- `Number.add/sub/mul/div/mod` applied to an already-reduced operand:
a `Number` operand computes; anything else aborts with a TypeMismatch
diagnostic naming both kinds.  Division/modulo by zero raise the host's
`ZeroDivisionError`.  The modulo follows Python float `%` (sign of the
divisor): `q % p = q - p * floor(q / p)`. -/
def numArith : ArithOp → ℚ → ℚ → Except Err Obj
  | .aAdd, q, p => .ok (.number (q + p))
  | .aSub, q, p => .ok (.number (q - p))
  | .aMul, q, p => .ok (.number (q * p))
  | .aDiv, q, p =>
      if p = 0 then .error .hostZeroDivisionError else .ok (.number (q / p))
  | .aMod, q, p =>
      if p = 0 then .error .hostZeroDivisionError
      else .ok (.number (q - p * (⌊q / p⌋ : ℤ)))

def numArithObj (a : ArithOp) (q : ℚ) : Obj → Except Err Obj
  | .number p => numArith a q p
  | o => .error (.aborted ("Invalid types for operation: Number and " ++ typeName o))

/-- Python `str.replace(pat, rep)` over character lists: every
(left-to-right, non-overlapping) occurrence of a non-empty pattern is
replaced.  (Python's empty-pattern insertion behaviour is not modelled;
the interpreter only ever replaces the two-character placeholder.) -/
def replaceAllAux (pat rep : List Char) : Nat → List Char → List Char
  | 0, l => l
  | _ + 1, [] => []
  | fuel + 1, c :: rest =>
      if pat ≠ [] ∧ pat.isPrefixOf (c :: rest) then
        rep ++ replaceAllAux pat rep fuel ((c :: rest).drop pat.length)
      else
        c :: replaceAllAux pat rep fuel rest

/-- Entry point of `replaceAllAux`; a non-empty pattern consumes at least
one character per step, so fuel equal to the input length is exact. -/
def replaceAll (pat rep l : List Char) : List Char :=
  replaceAllAux pat rep l.length l

/-- Python `str.replace` on strings. -/
def strReplace (s pat rep : String) : String :=
  String.mk (replaceAll pat.toList rep.toList s.toList)

/-- The two-character template placeholder searched by `String.mod`. -/
def placeholder : String := "{}"

/-- `String.add/mul/mod` applied to an already-reduced operand.
`add` concatenates with the operand's `repr`; `mul` repeats — but the
repeat count is a Python float, and `str * float` raises a host
`TypeError` before the result constructor is reached; `mod` substitutes
the placeholder.  `add`, `mul` and `mod` results are routed through the
`String` constructor (`mkStringPayload`).  `String` has no `sub`/`div`
of its own, so those fall back to the base class's unbounded
self-recursion, which the host kills with a `RecursionError`. -/
def strArithObj (a : ArithOp) (s : String) (o : Obj) : Except Err Obj :=
  match a with
  | .aAdd => .ok (.str (mkStringPayload (s ++ objRepr o)))
  | .aMul =>
      match o with
      | .number _ => .error (.hostTypeError "can\x27t multiply sequence by non-int of type float")
      | _ => .error (.aborted ("Invalid types for operation: String and " ++ typeName o))
  | .aMod => .ok (.str (mkStringPayload (strReplace s placeholder (objRepr o))))
  | _ => .error .hostRecursionError

/-- Class dispatch of an arithmetic method once both operands are reduced
objects: `Number` and `String` have their own methods; every other class
inherits `BaseObject`'s `self.visit().op(other.visit())`, which
self-recurses without progress and dies with a host `RecursionError`. -/
def objArith (a : ArithOp) (rv lv : Obj) : Except Err Obj :=
  match rv with
  | .number q => numArithObj a q lv
  | .str s => strArithObj a s lv
  | _ => .error .hostRecursionError

/-- Expression-node trees walked by the evaluator.  `atom` is a terminal
`BaseObject` occurring in the tree; the others are the
`SpecialExpression` node classes.  `binOp` keeps the source's
constructor order `BinOp(op, right, left)`: `right` is the operand the
method is dispatched on (and is reduced first). -/
inductive Expr where
  | atom (o : Obj)
  | binOp (op : String) (right left : Expr)
  | ifNode (condition trueBlock falseBlock : Expr)
  | assignment (name : String) (value : Expr)
  | callNode (e : Expr)
deriving DecidableEq

/-- The uniform `visit` (reduce) operation.  State: the active top frame
(all source writes go to `ENV[-1]`); output: the printed lines, in
order.  A host exception or an `abort` ends the run, discarding the
result (`Except.error`). -/
def visit : Expr → Env → Except Err (Obj × Env × List String)
  | .atom o, env => .ok (o, env, [])
  | .binOp op r l, env =>
      match opKind? op with
      | none => .error (.hostKeyError op)
      | some (.arith a) => do
          let (rv, env1, t1) ← visit r env
          let (lv, env2, t2) ← visit l env1
          let res ← objArith a rv lv
          .ok (res, env2, t1 ++ t2)
      | some (.cmp c) => do
          let (rv, env1, t1) ← visit r env
          let pv ← pyValue rv
          let (lv, env2, t2) ← visit l env1
          let qv ← pyValue lv
          let b ← pyCmpApply c pv qv
          .ok (.boolean b, env2, t1 ++ t2)
      | some .andK => do
          let (rv, env1, t1) ← visit r env
          let pv ← pyValue rv
          if pyTruthy pv then do
            let (lv, env2, t2) ← visit l env1
            let qv ← pyValue lv
            .ok (.boolean (pyTruthy qv), env2, t1 ++ t2)
          else
            .ok (.boolean false, env1, t1)
      | some .orK => do
          let (rv, env1, t1) ← visit r env
          let pv ← pyValue rv
          if pyTruthy pv then
            .ok (.boolean true, env1, t1)
          else do
            let (lv, env2, t2) ← visit l env1
            let qv ← pyValue lv
            .ok (.boolean (pyTruthy qv), env2, t1 ++ t2)
  | .ifNode c tb fb, env => do
      let (cv, env1, t1) ← visit c env
      let pv ← pyValue cv
      if pyEqVal pv (.pbool true) then do
        let (tv, env2, t2) ← visit tb env1
        .ok (tv, env2, t1 ++ t2)
      else do
        let (fv, env2, t2) ← visit fb env1
        .ok (fv, env2, t1 ++ t2)
  | .assignment n ve, env => do
      let (v, env1, t1) ← visit ve env
      let (env2, t2) := env1.setitem n v
      match env2.getitem n with
      | some res => .ok (res, env2, t1 ++ t2)
      | none => .error (.hostKeyError n)
  | .callNode e, env => visit e env

/-- `Print.call`: reduces the argument, prints its `repr`, and returns
the printed host string (the source returns the `str`, not the object). -/
def printCall (arg : Expr) (env : Env) : Except Err (String × Env × List String) := do
  let (v, env1, t1) ← visit arg env
  let r := objRepr v
  .ok (r, env1, t1 ++ [r])

/-- Last binding of a key in a raw pair list (dict insertion order makes
the last write win). -/
def lookupLast : List (String × Obj) → String → Option Obj
  | [], _ => none
  | kv :: t, k =>
      match lookupLast t k with
      | some r => some r
      | none => if k = kv.1 then some kv.2 else none

/-- Build a `dict` from pairs by repeated insertion (splat/comprehension
semantics: later duplicates overwrite in place). -/
def buildEntries (kvs : List (String × Obj)) : List (String × Obj) :=
  kvs.foldl (fun acc kv => listSet acc kv.1 kv.2) []

/-- The `{arg: Null() for arg in args}` parameter dict. -/
def paramDict (args : List String) : List (String × Obj) :=
  buildEntries (args.map (fun a => (a, Obj.null)))

/-- A user-defined function object: captured environment snapshot,
parameter names, body expression. -/
structure UserDefinedFunction where
  env : Env
  args : List String
  expr : Expr
deriving DecidableEq

/-- `UserDefinedFunction.__init__`:
`self.env = Env(**ENV[-1], **{arg: Null() for arg in args})`.
When a parameter name collides with a key of the defining frame the
double splat raises a host `TypeError` (`got multiple values for keyword
argument`); otherwise the captured frame is a fresh `Env` built from the
outer frame's current items followed by the `Null` parameter
placeholders. -/
def mkUserDefinedFunction (outer : Env) (args : List String) (expr : Expr) :
    Except Err UserDefinedFunction :=
  let params := paramDict args
  if params.any (fun p => (listGet outer.entries p.1).isSome) then
    .error (.hostTypeError "got multiple values for keyword argument")
  else
    .ok { env := (Env.initFrom (outer.entries ++ params)).1, args := args, expr := expr }

/-- `UserDefinedFunction.call(**kwargs)`: writes each supplied binding
into the captured environment and returns the function (with its mutated
environment), the diagnostics printed, and the `CallNode` thunk wrapping
the body. -/
def UserDefinedFunction.call (f : UserDefinedFunction)
    (kwargs : List (String × Obj)) :
    UserDefinedFunction × List String × Expr :=
  let r := kwargs.foldl
    (fun acc kv =>
      let s := acc.1.setitem kv.1 kv.2
      (s.1, acc.2 ++ s.2))
    (f.env, [])
  ({ f with env := r.1 }, r.2, .callNode f.expr)

end EchoStar

/-!  ## Helper lemmas about dictionaries, environments and stripping  -/

namespace EchoStar

theorem listGet_listSet_self (l : List (String × Obj)) (k : String) (v : Obj) :
    listGet (listSet l k v) k = some v := by
  induction l with
  | nil => simp [listSet, listGet]
  | cons h t ih =>
      obtain ⟨k0, v0⟩ := h
      by_cases hk : k = k0 <;> simp [listSet, listGet, hk, ih]

theorem listGet_listSet_ne (l : List (String × Obj)) (k k2 : String) (v : Obj)
    (hne : k2 ≠ k) : listGet (listSet l k v) k2 = listGet l k2 := by
  induction l with
  | nil => simp [listSet, listGet, hne]
  | cons h t ih =>
      obtain ⟨k0, v0⟩ := h
      by_cases hk : k = k0
      · subst hk; simp [listSet, listGet, hne]
      · by_cases hk2 : k2 = k0 <;> simp [listSet, listGet, hk, hk2, ih]

theorem listGet_foldl_listSet (l : List (String × Obj))
    (init : List (String × Obj)) (k : String) :
    listGet (l.foldl (fun acc kv => listSet acc kv.1 kv.2) init) k
      = (match lookupLast l k with
         | some v => some v
         | none => listGet init k) := by
  induction l generalizing init with
  | nil => simp [lookupLast]
  | cons kv t ih =>
      simp only [List.foldl_cons, ih, lookupLast]
      cases hlast : lookupLast t k with
      | some r => simp
      | none =>
          by_cases hk : k = kv.1
          · simp [hk, listGet_listSet_self]
          · simp [hk, listGet_listSet_ne _ _ _ _ hk]

theorem lookupLast_append (l1 l2 : List (String × Obj)) (k : String) :
    lookupLast (l1 ++ l2) k
      = (match lookupLast l2 k with
         | some v => some v
         | none => lookupLast l1 k) := by
  induction l1 with
  | nil =>
      simp only [List.nil_append, lookupLast]
      cases lookupLast l2 k <;> simp
  | cons kv t ih =>
      simp only [List.cons_append, lookupLast, List.append_eq]
      rw [ih]
      cases lookupLast l2 k <;> cases lookupLast t k <;> simp

theorem lookupLast_of_not_mem (l : List (String × Obj)) (k : String)
    (h : k ∉ l.map Prod.fst) : lookupLast l k = none := by
  induction l with
  | nil => rfl
  | cons kv t ih =>
      simp only [List.map_cons, List.mem_cons] at h
      push_neg at h
      simp [lookupLast, ih h.2, h.1]

theorem lookupLast_eq_listGet_of_nodup (l : List (String × Obj)) (k : String)
    (h : (l.map Prod.fst).Nodup) : lookupLast l k = listGet l k := by
  induction l with
  | nil => rfl
  | cons kv t ih =>
      simp only [List.map_cons, List.nodup_cons] at h
      by_cases hk : k = kv.1
      · subst hk
        simp [lookupLast, lookupLast_of_not_mem t _ h.1, listGet]
      · simp [lookupLast, ih h.2, listGet, hk]
        cases listGet t k <;> simp [hk]

theorem mem_listSet (l : List (String × Obj)) (k : String) (v : Obj)
    (kv : String × Obj) : kv ∈ listSet l k v → kv ∈ l ∨ kv = (k, v) := by
  induction l with
  | nil =>
      intro h
      right
      simpa [listSet] using h
  | cons h0 t ih =>
      obtain ⟨k0, v0⟩ := h0
      intro h
      by_cases hk : k = k0
      · subst hk
        simp only [listSet, if_true, eq_self_iff_true, if_pos, List.mem_cons] at h
        rcases h with h | h
        · right; exact h
        · left; exact List.mem_cons_of_mem _ h
      · simp only [listSet, if_neg hk, List.mem_cons] at h
        rcases h with h | h
        · left; simp [h]
        · rcases ih h with h2 | h2
          · left; exact List.mem_cons_of_mem _ h2
          · right; exact h2

theorem mem_foldl_listSet (l : List (String × Obj)) (kv : String × Obj) :
    ∀ init : List (String × Obj),
      kv ∈ l.foldl (fun acc p => listSet acc p.1 p.2) init →
      kv ∈ init ∨ kv ∈ l := by
  induction l with
  | nil => exact fun init h => Or.inl h
  | cons p t ih =>
      intro init h
      simp only [List.foldl_cons] at h
      rcases ih _ h with h2 | h2
      · rcases mem_listSet _ _ _ _ h2 with h3 | h3
        · exact Or.inl h3
        · right; simp [h3]
      · right; simp [h2]

theorem mem_buildEntries (kvs : List (String × Obj)) (kv : String × Obj)
    (h : kv ∈ buildEntries kvs) : kv ∈ kvs := by
  rcases mem_foldl_listSet kvs kv [] h with h2 | h2
  · cases h2
  · exact h2

theorem lookupLast_paramDict_raw (args : List String) (k : String) :
    lookupLast (args.map (fun a => (a, Obj.null))) k
      = if k ∈ args then some Obj.null else none := by
  induction args with
  | nil => simp [lookupLast]
  | cons a t ih =>
      simp only [List.map_cons, lookupLast, ih]
      by_cases ha : k = a
      · subst ha
        by_cases hk : k ∈ t <;> simp [hk]
      · by_cases hk : k ∈ t <;> simp [hk, ha]

theorem listGet_paramDict (args : List String) (k : String) :
    listGet (paramDict args) k = if k ∈ args then some Obj.null else none := by
  unfold paramDict buildEntries
  rw [listGet_foldl_listSet, lookupLast_paramDict_raw]
  by_cases hk : k ∈ args <;> simp [hk, listGet]

theorem setitem_plain_key (e : Env) (k : String) (v : Obj)
    (hc : e.constants = []) (hp : strStartsWith constPrefix k = false) :
    e.setitem k v = ({ entries := listSet e.entries k v, constants := [] }, []) := by
  have hk : k ∉ e.constants := by simp [hc]
  have hs : stripConst k = k := by simp [stripConst, hp]
  simp [Env.setitem, hk, hp, hs, hc]

theorem initFrom_plain_keys_aux (kvs : List (String × Obj)) (e : Env)
    (tr : List String) (hc : e.constants = [])
    (hp : ∀ kv ∈ kvs, strStartsWith constPrefix kv.1 = false) :
    kvs.foldl
      (fun acc kv =>
        let r := acc.1.setitem kv.1 kv.2
        (r.1, acc.2 ++ r.2))
      (e, tr)
    = ({ entries := kvs.foldl (fun acc kv => listSet acc kv.1 kv.2) e.entries,
         constants := [] }, tr) := by
  induction kvs generalizing e tr with
  | nil =>
      simp only [List.foldl_nil]
      cases e
      simp_all
  | cons kv t ih =>
      simp only [List.foldl_cons]
      rw [setitem_plain_key e kv.1 kv.2 hc (hp kv (by simp))]
      simpa using ih { entries := listSet e.entries kv.1 kv.2, constants := [] }
        tr rfl (fun p hp2 => hp p (by simp [hp2]))

theorem initFrom_plain_keys (kvs : List (String × Obj))
    (hp : ∀ kv ∈ kvs, strStartsWith constPrefix kv.1 = false) :
    Env.initFrom kvs = ({ entries := buildEntries kvs, constants := [] }, []) := by
  unfold Env.initFrom buildEntries
  exact initFrom_plain_keys_aux kvs { entries := [], constants := [] } [] rfl hp

theorem head_dropWhile_not (p : Char → Bool) (l : List Char) :
    (l.dropWhile p).head?.all (fun c => !p c) = true := by
  induction l with
  | nil => rfl
  | cons c t ih =>
      by_cases hc : p c = true
      · simpa [List.dropWhile, hc] using ih
      · simp only [Bool.not_eq_true] at hc
        simp [List.dropWhile, hc]

end EchoStar

/-!  ## Claim theorems  -/

namespace EchoStar

/-- C1: for every Conditional node, `visit` first reduces the condition to
a value and tests its payload with `== True`; when the test holds the
result (value, environment, output) comes from reducing only the
true-branch, otherwise only the false-branch; the untaken branch is never
reduced — the overall outcome does not depend on it at all. -/
theorem conditional_reduces_only_taken_branch
    (c a b : Expr) (env env1 : Env) (cv : Obj) (t1 : List String) (pv : PyVal)
    (hc : visit c env = .ok (cv, env1, t1)) (hp : pyValue cv = .ok pv) :
    (pyEqVal pv (.pbool true) = true →
      (∀ b2 : Expr, visit (.ifNode c a b) env = visit (.ifNode c a b2) env) ∧
      visit (.ifNode c a b) env
        = (match visit a env1 with
           | .ok (v, e2, t2) => .ok (v, e2, t1 ++ t2)
           | .error err => .error err)) ∧
    (pyEqVal pv (.pbool true) = false →
      (∀ a2 : Expr, visit (.ifNode c a b) env = visit (.ifNode c a2 b) env) ∧
      visit (.ifNode c a b) env
        = (match visit b env1 with
           | .ok (v, e2, t2) => .ok (v, e2, t1 ++ t2)
           | .error err => .error err)) := by
  constructor
  · intro ht
    constructor
    · intro b2
      simp [visit, hc, hp, ht, Bind.bind, Except.bind]
    · simp only [visit, hc, hp, ht, Bind.bind, Except.bind]
      cases hv : visit a env1 with
      | ok res =>
          obtain ⟨v, e2, t2⟩ := res
          simp [hv]
      | error err => simp [hv]
  · intro hf
    constructor
    · intro a2
      simp [visit, hc, hp, hf, Bind.bind, Except.bind]
    · simp only [visit, hc, hp, hf, Bind.bind, Except.bind]
      cases hv : visit b env1 with
      | ok res =>
          obtain ⟨v, e2, t2⟩ := res
          simp [hv]
      | error err => simp [hv]

/-- Witness for C1 at a concrete input: with a true condition, the
conditional's outcome is independent of the false-branch (here: an
assignment whose side effect would be observable), and equals the
true-branch's value. -/
theorem conditional_reduces_only_taken_branch_witness :
    visit (.ifNode (.atom (.boolean true)) (.atom (.number 1))
            (.assignment "w" (.atom (.number 9)))) rootEnv
      = visit (.ifNode (.atom (.boolean true)) (.atom (.number 1))
            (.atom .null)) rootEnv :=
  ((conditional_reduces_only_taken_branch (.atom (.boolean true))
      (.atom (.number 1)) (.assignment "w" (.atom (.number 9)))
      rootEnv rootEnv (.boolean true) [] (.pbool true) rfl rfl).1 rfl).1
    (.atom .null)


/-- C2 counterexample: in an environment where `x` was locked through the
constant-declaring pathway (now holding `1`), a further set spelled
`CONST_x` is NOT rejected: afterwards `get` returns the new value `2`,
not the retained prior value — refuting "every subsequent set on that
name, however the write is spelled, is a non-fatal no-op". -/
theorem const_rewrite_overwrites_locked_name :
    ((Env.initFrom [(constPrefix ++ "x", .number 1)]).1.constants = ["x"]) ∧
    ((Env.initFrom [(constPrefix ++ "x", .number 1)]).1.getitem "x"
       = some (.number 1)) ∧
    (((Env.initFrom [(constPrefix ++ "x", .number 1)]).1.setitem
        (constPrefix ++ "x") (.number 2)).1.getitem "x" = some (.number 2)) ∧
    Obj.number 2 ≠ Obj.number 1 :=
  ⟨rfl, rfl, rfl, by decide⟩

/-- C2 (amended): once a name is locked, a set spelled with exactly that
name is a non-fatal no-op — the environment is unchanged, the diagnostic
is printed, and `get` still returns the prior value; but a set re-spelled
through the constant-declaring `CONST_` pathway bypasses the lock check
and overwrites the locked binding. -/
theorem locked_name_set_semantics (env : Env) (n k2 : String) (v : Obj) :
    (n ∈ env.constants → env.setitem n v = (env, [constMsg])) ∧
    (strStartsWith constPrefix k2 = true → stripConst k2 = n →
      k2 ∉ env.constants →
      (env.setitem k2 v).1.getitem n = some v) := by
  constructor
  · intro hmem
    simp [Env.setitem, hmem]
  · intro hpre hstrip hnot
    simp only [Env.setitem, if_neg hnot, Env.getitem, hstrip]
    exact listGet_listSet_self _ _ _

/-- Witness for C2 (amended) at a concrete input: the root frame extended
with a locked `x = 1` rejects the plain re-set, and the `CONST_`-spelled
re-set lands. -/
theorem locked_name_set_semantics_witness :
    ((Env.initFrom [(constPrefix ++ "x", .number 1)]).1.setitem "x" (.number 2)
       = ((Env.initFrom [(constPrefix ++ "x", .number 1)]).1, [constMsg])) ∧
    (((Env.initFrom [(constPrefix ++ "x", .number 1)]).1.setitem "CONST_x"
        (.number 2)).1.getitem "x" = some (.number 2)) :=
  ⟨(locked_name_set_semantics (Env.initFrom
      [(constPrefix ++ "x", .number 1)]).1 "x" "CONST_x" (.number 2)).1
      (by decide),
   (locked_name_set_semantics (Env.initFrom
      [(constPrefix ++ "x", .number 1)]).1 "x" "CONST_x" (.number 2)).2
      rfl rfl (by decide)⟩

/-- C3 counterexample: `&&` with a falsy first operand never reduces the
second operand: here the second operand is an assignment whose reduction
would bind `y` (as the third and fourth conjuncts show), yet after
reducing the `&&` node the environment is unchanged and `y` is unbound —
refuting "the right operand is reduced even when the left operand already
determines the result". -/
theorem and_short_circuits_second_operand :
    (visit (.binOp "&&" (.atom (.boolean false))
        (.assignment "y" (.atom (.number 2)))) rootEnv
      = .ok (.boolean false, rootEnv, [])) ∧
    (rootEnv.getitem "y" = none) ∧
    (visit (.assignment "y" (.atom (.number 2))) rootEnv
      = .ok (.number 2, (rootEnv.setitem "y" (.number 2)).1, [])) ∧
    ((rootEnv.setitem "y" (.number 2)).1.getitem "y" = some (.number 2)) :=
  ⟨rfl, rfl, rfl, rfl⟩


/-- C3 (amended): `&&` and `||` coerce their operands' reduced values to
Boolean by the truthiness rule (numeric zero, empty string and Null are
falsy, everything else truthy) and return the Boolean
conjunction/disjunction — but, following the host's `and`/`or`
semantics, they short-circuit: `&&` reduces the second operand only when
the first is truthy, `||` only when the first is falsy. -/
theorem and_or_truthiness_short_circuit
    (r l : Expr) (env env1 : Env) (rv : Obj) (t1 : List String) (pv : PyVal)
    (hr : visit r env = .ok (rv, env1, t1)) (hp : pyValue rv = .ok pv) :
    (pyTruthy pv = false →
      visit (.binOp "&&" r l) env = .ok (.boolean false, env1, t1) ∧
      visit (.binOp "||" r l) env
        = (match visit l env1 with
           | .ok (lv, env2, t2) =>
               (match pyValue lv with
                | .ok qv => .ok (.boolean (pyTruthy qv), env2, t1 ++ t2)
                | .error e => .error e)
           | .error e => .error e)) ∧
    (pyTruthy pv = true →
      visit (.binOp "||" r l) env = .ok (.boolean true, env1, t1) ∧
      visit (.binOp "&&" r l) env
        = (match visit l env1 with
           | .ok (lv, env2, t2) =>
               (match pyValue lv with
                | .ok qv => .ok (.boolean (pyTruthy qv), env2, t1 ++ t2)
                | .error e => .error e)
           | .error e => .error e)) ∧
    (pyTruthy (.num 0) = false ∧ pyTruthy (.pstr "") = false ∧
     pyTruthy .pnone = false ∧ (∀ b : Bool, pyTruthy (.pbool b) = b)) ∧
    (∀ q : ℚ, q ≠ 0 → pyTruthy (.num q) = true) ∧
    (∀ s : String, s ≠ "" → pyTruthy (.pstr s) = true) := by
  refine ⟨fun hfalse => ⟨?_, ?_⟩, fun htrue => ⟨?_, ?_⟩,
    ⟨by decide, by decide, by decide, fun b => rfl⟩,
    fun q hq => by simp [pyTruthy, hq], fun s hs => by simp [pyTruthy, hs]⟩
  · simp [visit, opKind?, hr, hp, hfalse, Bind.bind, Except.bind]
  · simp only [visit, hr, hp, hfalse, Bind.bind, Except.bind]
    cases hv : visit l env1 with
    | ok res =>
        obtain ⟨lv, env2, t2⟩ := res
        cases hq : pyValue lv with
        | ok qv => simp [opKind?, hv, hq]
        | error e => simp [opKind?, hv, hq]
    | error e => simp [opKind?, hv]
  · simp [visit, opKind?, hr, hp, htrue, Bind.bind, Except.bind]
  · simp only [visit, hr, hp, htrue, Bind.bind, Except.bind]
    cases hv : visit l env1 with
    | ok res =>
        obtain ⟨lv, env2, t2⟩ := res
        cases hq : pyValue lv with
        | ok qv => simp [opKind?, hv, hq]
        | error e => simp [opKind?, hv, hq]
    | error e => simp [opKind?, hv]

/-- Witness for C3 (amended) at a concrete input: `true && 0` reduces
both operands and yields `false` by the truthiness of `0`. -/
theorem and_or_truthiness_short_circuit_witness :
    visit (.binOp "&&" (.atom (.boolean true)) (.atom (.number 0))) rootEnv
      = .ok (.boolean false, rootEnv, []) :=
  ((and_or_truthiness_short_circuit (.atom (.boolean true))
      (.atom (.number 0)) rootEnv rootEnv (.boolean true) [] (.pbool true)
      rfl rfl).2.1 rfl).2

/-- C4 counterexample: `String("\x7b\x7d \x7b\x7d") % Number(1)` replaces
BOTH placeholder occurrences, yielding `"1 1"`, not the claimed
first-occurrence-only `"1 \x7b\x7d"`. -/
theorem string_mod_replaces_both_placeholders :
    (visit (.binOp "%" (.atom (.str "\x7b\x7d \x7b\x7d")) (.atom (.number 1)))
        rootEnv
      = .ok (.str "1 1", rootEnv, [])) ∧
    "1 1" ≠ "1 \x7b\x7d" :=
  ⟨rfl, by decide⟩

/-- C4 (amended): `s % x` reduces `x` and returns a String in which EVERY
occurrence of the two-character placeholder in `s` is replaced by the
`repr` of the reduced value (the result text then passes through the
constructor's quote stripping). -/
theorem string_mod_substitutes_every_placeholder
    (s : String) (x : Expr) (env env1 : Env) (xv : Obj) (t1 : List String)
    (hx : visit x env = .ok (xv, env1, t1)) :
    visit (.binOp "%" (.atom (.str s)) x) env
      = .ok (.str (mkStringPayload (strReplace s placeholder (objRepr xv))),
             env1, t1) := by
  simp [visit, opKind?, hx, objArith, strArithObj, Bind.bind, Except.bind]

/-- Witness for C4 (amended) at the spec's own example:
`String("hi \x7b\x7d") % String("there")` gives `String("hi there")`. -/
theorem string_mod_substitutes_every_placeholder_witness :
    visit (.binOp "%" (.atom (.str "hi \x7b\x7d")) (.atom (.str "there")))
        rootEnv
      = .ok (.str "hi there", rootEnv, []) :=
  string_mod_substitutes_every_placeholder "hi \x7b\x7d"
    (.atom (.str "there")) rootEnv rootEnv (.str "there") [] rfl

/-- C5: `String * Number` never returns the repeated string: `Number`
stores its payload as a host float, and the host rejects `str * float`
with a `TypeError`, so every `String * Number` reduction dies with that
host error — in particular `String("x") * Number(3)` does not produce
`String("xxx")`. -/
theorem string_mul_always_raises_host_type_error :
    (∀ (s : String) (q : ℚ),
      objArith .aMul (.str s) (.number q)
        = .error (.hostTypeError
            "can\x27t multiply sequence by non-int of type float")) ∧
    visit (.binOp "*" (.atom (.str "x")) (.atom (.number 3))) rootEnv
      = .error (.hostTypeError
          "can\x27t multiply sequence by non-int of type float") :=
  ⟨fun _ _ => rfl, rfl⟩


/-- C6 counterexample: `Number(1) < String("a")` reduces both operands
and then fails with an uncaught host `TypeError` — not with a
TypeMismatch surfaced through the abort collaborator (`Err.aborted`);
and `Number(1) == String("a")` does not fail at all: it returns
`Boolean(false)`. -/
theorem comparison_mismatch_not_via_abort :
    (visit (.binOp "<" (.atom (.number 1)) (.atom (.str "a"))) rootEnv
      = .error (.hostTypeError
          "comparison not supported between these operand kinds")) ∧
    (Err.hostTypeError "comparison not supported between these operand kinds"
      ≠ Err.aborted "Invalid types for operation: Number and String") ∧
    (visit (.binOp "==" (.atom (.number 1)) (.atom (.str "a"))) rootEnv
      = .ok (.boolean false, rootEnv, [])) ∧
    (visit (.binOp "!=" (.atom (.number 1)) (.atom (.str "a"))) rootEnv
      = .ok (.boolean true, rootEnv, [])) :=
  ⟨rfl, by decide, rfl, rfl⟩

/-- C6 (amended): every comparison operator first reduces both operands
and then compares only their primitive payloads; on incompatible kinds
(e.g. Number vs String) the ordering comparisons `lt,gt,le,ge` fail with
an uncaught host-level `TypeError` (not via the abort collaborator),
while `eq`/`ne` never fail — they return `false`/`true` by the host's
cross-kind equality. -/
theorem comparison_reduces_then_compares_payloads
    (op : String) (c : CmpOp) (hop : opKind? op = some (.cmp c))
    (r l : Expr) (env env1 env2 : Env) (rv lv : Obj)
    (t1 t2 : List String) (pv qv : PyVal)
    (hr : visit r env = .ok (rv, env1, t1)) (hpv : pyValue rv = .ok pv)
    (hl : visit l env1 = .ok (lv, env2, t2)) (hqv : pyValue lv = .ok qv) :
    (visit (.binOp op r l) env
      = (match pyCmpApply c pv qv with
         | .ok b => .ok (.boolean b, env2, t1 ++ t2)
         | .error e => .error e)) ∧
    (∀ (q : ℚ) (s : String),
       pyCmpApply .cLt (.num q) (.pstr s)
         = .error (.hostTypeError
             "comparison not supported between these operand kinds") ∧
       pyCmpApply .cGt (.num q) (.pstr s)
         = .error (.hostTypeError
             "comparison not supported between these operand kinds") ∧
       pyCmpApply .cLe (.num q) (.pstr s)
         = .error (.hostTypeError
             "comparison not supported between these operand kinds") ∧
       pyCmpApply .cGe (.num q) (.pstr s)
         = .error (.hostTypeError
             "comparison not supported between these operand kinds") ∧
       pyCmpApply .cEq (.num q) (.pstr s) = .ok false ∧
       pyCmpApply .cNe (.num q) (.pstr s) = .ok true) := by
  constructor
  · simp only [visit, hop, hr, hpv, hl, hqv, Bind.bind, Except.bind]
    cases hc : pyCmpApply c pv qv <;> simp [hc]
  · intro q s
    exact ⟨rfl, rfl, rfl, rfl, rfl, rfl⟩

/-- Witness for C6 (amended) at a concrete input: `3 <= 5` reduces both
operands and compares payloads, yielding `Boolean(true)`. -/
theorem comparison_reduces_then_compares_payloads_witness :
    visit (.binOp "<=" (.atom (.number 3)) (.atom (.number 5))) rootEnv
      = .ok (.boolean true, rootEnv, []) :=
  (comparison_reduces_then_compares_payloads "<=" .cLe rfl
    (.atom (.number 3)) (.atom (.number 5)) rootEnv rootEnv rootEnv
    (.number 3) (.number 5) [] [] (.num 3) (.num 5) rfl rfl rfl rfl).1

/-- C7 counterexample: assigning `2` to the locked name `x` (holding `1`)
performs the lock-guarded write — a rejected no-op with a printed
diagnostic — and then returns the value the environment still holds,
`Number(1)`, NOT the reduced value `Number(2)` the claim promises. -/
theorem assignment_locked_returns_prior_value :
    (visit (.assignment "x" (.atom (.number 2)))
        (Env.initFrom [(constPrefix ++ "x", .number 1)]).1
      = .ok (.number 1, (Env.initFrom [(constPrefix ++ "x", .number 1)]).1,
             [constMsg])) ∧
    Obj.number 1 ≠ Obj.number 2 :=
  ⟨rfl, by decide⟩

/-- C7 (amended): `Assignment(n, e)` reduces `e` to `v`, performs the
lock-guarded write into the top frame, and returns the value the frame
holds under `n` AFTER the write (the source re-reads `ENV[-1][n]`): that
is `v` for a plain unlocked name; for a locked name it is the retained
prior value (with the diagnostic printed); and for a name spelled through
the constant-declaring `CONST_` pathway the re-read raises a host
`KeyError`, because the binding was stored under the stripped name. -/
theorem assignment_writes_then_rereads
    (n : String) (e : Expr) (env env1 : Env) (v : Obj) (t1 : List String)
    (he : visit e env = .ok (v, env1, t1)) :
    (n ∉ env1.constants → strStartsWith constPrefix n = false →
      visit (.assignment n e) env = .ok (v, (env1.setitem n v).1, t1)) ∧
    (∀ old, n ∈ env1.constants → env1.getitem n = some old →
      visit (.assignment n e) env = .ok (old, env1, t1 ++ [constMsg])) ∧
    (strStartsWith constPrefix n = true → n ∉ env1.constants →
      stripConst n ≠ n → env1.getitem n = none →
      visit (.assignment n e) env = .error (.hostKeyError n)) := by
  refine ⟨fun hnc hnp => ?_, fun old hc hold => ?_, fun hp hnc hne hnone => ?_⟩
  · have hs : stripConst n = n := by simp [stripConst, hnp]
    have hset : env1.setitem n v
        = ({ entries := listSet env1.entries n v,
             constants := env1.constants }, []) := by
      simp [Env.setitem, hnc, hnp, hs]
    have hget : (env1.setitem n v).1.getitem n = some v := by
      rw [hset]
      exact listGet_listSet_self _ _ _
    simp only [visit, he, Bind.bind, Except.bind]
    rw [hset] at hget ⊢
    simp [Env.getitem] at hget
    simp [Env.getitem, hget]
  · have hset : env1.setitem n v = (env1, [constMsg]) := by
      simp [Env.setitem, hc]
    simp only [visit, he, Bind.bind, Except.bind, hset]
    simp [hold]
  · have hset : env1.setitem n v
        = ({ entries := listSet env1.entries (stripConst n) v,
             constants := env1.constants ++ [stripConst n] }, []) := by
      simp [Env.setitem, hnc, hp]
    have hget : (env1.setitem n v).1.getitem n = none := by
      rw [hset]
      show listGet (listSet env1.entries (stripConst n) v) n = none
      rw [listGet_listSet_ne _ _ _ _ (fun h2 => hne h2.symm)]
      exact hnone
    simp only [visit, he, Bind.bind, Except.bind, hset]
    rw [hset] at hget
    simp only [Env.getitem] at hget
    simp [Env.getitem, hget]

/-- Witness for C7 (amended) at concrete inputs: an ordinary assignment
returns the assigned value; the locked and `CONST_`-spelled cases are the
counterexample's territory. -/
theorem assignment_writes_then_rereads_witness :
    visit (.assignment "z" (.atom (.number 5))) rootEnv
      = .ok (.number 5, (rootEnv.setitem "z" (.number 5)).1, []) :=
  (assignment_writes_then_rereads "z" (.atom (.number 5)) rootEnv rootEnv
    (.number 5) [] rfl).1 (by decide) (by decide)


/-- C9: `Number.repr` strips every leading and trailing `.` and `0`
character from the host rendering of an integral value, mangling integral
numbers that end in zero: `Number(100)` and `Number(10)` both render as
`"1"` and `Number(0)` renders as the empty string — and this mangled text
is exactly what `print` emits and what `String` concatenation appends. -/
theorem number_repr_strips_edge_dot_zero :
    numberRepr 100 = "1" ∧ numberRepr 10 = "1" ∧ numberRepr 0 = "" ∧
    (∀ q : ℚ, q.den = 1 →
      numberRepr q = stripBoth dotZeroChars (pyStrNum q)) ∧
    printCall (.atom (.number 100)) rootEnv = .ok ("1", rootEnv, ["1"]) ∧
    visit (.binOp "+" (.atom (.str "n=")) (.atom (.number 10))) rootEnv
      = .ok (.str "n=1", rootEnv, []) :=
  ⟨rfl, rfl, rfl, fun _ h => by simp [numberRepr, h], rfl, rfl⟩

/-- Witness for C9 at a concrete integral input. -/
theorem number_repr_strips_edge_dot_zero_witness :
    (100 : ℚ).den = 1 ∧
    numberRepr 100 = stripBoth dotZeroChars (pyStrNum 100) :=
  ⟨by decide, number_repr_strips_edge_dot_zero.2.2.2.1 100 (by decide)⟩

theorem head_stripBoth_not (cs : List Char) (s : String) :
    ((stripBoth cs s).toList.head?.all (fun c => !cs.contains c)) = true := by
  show ((((s.toList.dropWhile (fun c => cs.contains c)).reverse.dropWhile
      (fun c => cs.contains c)).reverse).head?.all
        (fun c => !cs.contains c)) = true
  have h1 : (s.toList.dropWhile (fun c => cs.contains c)).head?.all
      (fun c => !cs.contains c) = true :=
    head_dropWhile_not (fun c => cs.contains c) s.toList
  obtain ⟨t, ht⟩ :
      ((s.toList.dropWhile (fun c => cs.contains c)).reverse.dropWhile
        (fun c => cs.contains c))
      <:+ (s.toList.dropWhile (fun c => cs.contains c)).reverse :=
    List.dropWhile_suffix _
  have hx : ((s.toList.dropWhile (fun c => cs.contains c)).reverse.dropWhile
        (fun c => cs.contains c)).reverse ++ t.reverse
      = s.toList.dropWhile (fun c => cs.contains c) := by
    rw [← List.reverse_append, ht, List.reverse_reverse]
  cases hxr : ((s.toList.dropWhile (fun c => cs.contains c)).reverse.dropWhile
      (fun c => cs.contains c)).reverse with
  | nil => simp
  | cons c t2 =>
      rw [hxr] at hx
      rw [← hx] at h1
      simpa using h1

theorem getLast_stripBoth_not (cs : List Char) (s : String) :
    ((stripBoth cs s).toList.getLast?.all (fun c => !cs.contains c)) = true := by
  show ((((s.toList.dropWhile (fun c => cs.contains c)).reverse.dropWhile
      (fun c => cs.contains c)).reverse).getLast?.all
        (fun c => !cs.contains c)) = true
  rw [List.getLast?_reverse]
  exact head_dropWhile_not _ _

/-- C10: the `String` constructor strips ALL leading and trailing quote
characters (double or single) from its raw payload — the stored text
never begins or ends with a quote — and the String-producing operations
route their result text through the constructor: `add` stores the
stripped concatenation and `mod` the stripped substitution.  (`mul` is
written to route through the constructor too, but never reaches it: it
has no successful outcome at all — see the repetition defect.) -/
theorem string_constructor_strips_edge_quotes :
    (∀ raw : String, mkStringPayload raw = stripBoth quoteChars raw) ∧
    (∀ raw : String,
      ((mkStringPayload raw).toList.head?.all
        (fun c => !quoteChars.contains c)) = true) ∧
    (∀ raw : String,
      ((mkStringPayload raw).toList.getLast?.all
        (fun c => !quoteChars.contains c)) = true) ∧
    mkStringPayload "\x22\x22hello\x27\x22" = "hello" ∧
    (∀ (s : String) (o : Obj),
      objArith .aAdd (.str s) o
        = .ok (.str (mkStringPayload (s ++ objRepr o)))) ∧
    (∀ (s : String) (o : Obj),
      objArith .aMod (.str s) o
        = .ok (.str (mkStringPayload (strReplace s placeholder (objRepr o))))) ∧
    (∀ (s : String) (o : Obj), (objArith .aMul (.str s) o).toOption = none) ∧
    visit (.binOp "+" (.atom (.str "say: ")) (.atom (.str "hi"))) rootEnv
      = .ok (.str "say: hi", rootEnv, []) :=
  ⟨fun _ => rfl,
   fun raw => head_stripBoth_not quoteChars raw,
   fun raw => getLast_stripBoth_not quoteChars raw,
   rfl,
   fun _ _ => rfl,
   fun _ _ => rfl,
   fun _ o => by cases o <;> rfl,
   rfl⟩

theorem lookupLast_mem (l : List (String × Obj)) (k : String) (v : Obj) :
    lookupLast l k = some v → (k, v) ∈ l := by
  induction l with
  | nil => intro h; cases h
  | cons kv t ih =>
      intro h
      simp only [lookupLast] at h
      cases hl : lookupLast t k with
      | some r =>
          rw [hl] at h
          cases h
          exact List.mem_cons_of_mem _ (ih hl)
      | none =>
          rw [hl] at h
          by_cases hk : k = kv.1
          · rw [if_pos hk] at h
            cases h
            rw [hk]
            exact List.mem_cons_self _ _
          · rw [if_neg hk] at h
            cases h

theorem exists_lookupLast_of_mem_keys (l : List (String × Obj)) (k : String) :
    k ∈ l.map Prod.fst → ∃ v, lookupLast l k = some v := by
  induction l with
  | nil => intro h; cases h
  | cons kv t ih =>
      intro h
      simp only [lookupLast]
      cases hl : lookupLast t k with
      | some r => exact ⟨r, rfl⟩
      | none =>
          simp only [List.map_cons, List.mem_cons] at h
          rcases h with h | h
          · exact ⟨kv.2, by rw [if_pos h]⟩
          · obtain ⟨v, hv⟩ := ih h
            rw [hv] at hl
            cases hl

theorem mem_keys_of_listGet (l : List (String × Obj)) (k : String) (v : Obj) :
    listGet l k = some v → k ∈ l.map Prod.fst := by
  induction l with
  | nil => intro h; cases h
  | cons kv t ih =>
      intro h
      simp only [listGet] at h
      by_cases hk : k = kv.1
      · simp [hk]
      · rw [if_neg hk] at h
        simp only [List.map_cons, List.mem_cons]
        exact Or.inr (ih h)

theorem keys_paramDict_subset (args : List String) (k : String) :
    k ∈ (paramDict args).map Prod.fst → k ∈ args := by
  intro h
  simp only [List.mem_map] at h
  obtain ⟨kv, hm, hk⟩ := h
  have := mem_buildEntries _ _ hm
  simp only [List.mem_map] at this
  obtain ⟨a, ha, rfl⟩ := this
  rw [← hk]
  exact ha

theorem lookupLast_paramDict (args : List String) (k : String) :
    lookupLast (paramDict args) k
      = if k ∈ args then some Obj.null else none := by
  by_cases hk : k ∈ args
  · have hget : listGet (paramDict args) k = some Obj.null := by
      rw [listGet_paramDict, if_pos hk]
    have hkeys := mem_keys_of_listGet _ _ _ hget
    obtain ⟨v, hv⟩ := exists_lookupLast_of_mem_keys _ _ hkeys
    have hmem := lookupLast_mem _ _ _ hv
    have := mem_buildEntries _ _ hmem
    simp only [List.mem_map] at this
    obtain ⟨a, _, ha⟩ := this
    have hval : v = Obj.null := (Prod.mk.injEq _ _ _ _ ▸ ha).2.symm ▸ rfl
    rw [if_pos hk, hv]
    cases ha
    rfl
  · rw [if_neg hk]
    exact lookupLast_of_not_mem _ _ (fun hmem => hk (keys_paramDict_subset args k hmem))

/-- C8: constructing a UserDefined function snapshots the defining (top)
frame: whenever construction succeeds, the captured environment binds
exactly the outer frame's current names to their current values plus a
Null placeholder for each declared parameter; and a write made to the
outer frame afterwards is not visible in the captured environment — the
closure still lacks a name freshly added to the outer frame, even though
the outer frame now holds it.  (Construction succeeds unless a parameter
name collides with an existing outer binding, in which case the double
splat raises a host `TypeError` and no function is produced.) -/
theorem closure_snapshot_isolation
    (outer : Env) (args : List String) (expr : Expr) (f : UserDefinedFunction)
    (hkeys : (outer.entries.map Prod.fst).Nodup)
    (houter : ∀ kv ∈ outer.entries, strStartsWith constPrefix kv.1 = false)
    (hargs : ∀ a ∈ args, strStartsWith constPrefix a = false)
    (hok : mkUserDefinedFunction outer args expr = .ok f) :
    (∀ k, f.env.getitem k
        = if k ∈ args then some Obj.null else outer.getitem k) ∧
    (∀ m w, m ∉ args → strStartsWith constPrefix m = false →
      outer.getitem m = none → m ∉ outer.constants →
      f.env.getitem m = none ∧ (outer.setitem m w).1.getitem m = some w) := by
  by_cases hcol : (paramDict args).any (fun p => (listGet outer.entries p.1).isSome)
  · rw [mkUserDefinedFunction] at hok
    simp only [hcol] at hok
    cases hok
  · rw [mkUserDefinedFunction] at hok
    simp only [hcol, Bool.false_eq_true, if_false, Except.ok.injEq] at hok
    have hpfx : ∀ kv ∈ outer.entries ++ paramDict args,
        strStartsWith constPrefix kv.1 = false := by
      intro kv hm
      rcases List.mem_append.mp hm with hm | hm
      · exact houter kv hm
      · have := mem_buildEntries _ _ hm
        simp only [List.mem_map] at this
        obtain ⟨a, ha, rfl⟩ := this
        exact hargs a ha
    have henv : f.env = { entries := buildEntries (outer.entries ++ paramDict args),
                          constants := [] } := by
      rw [← hok]
      show (Env.initFrom (outer.entries ++ paramDict args)).1 = _
      rw [initFrom_plain_keys _ hpfx]
    have hmain : ∀ k, f.env.getitem k
        = if k ∈ args then some Obj.null else outer.getitem k := by
      intro k
      rw [henv]
      show listGet (buildEntries (outer.entries ++ paramDict args)) k = _
      rw [buildEntries, listGet_foldl_listSet, lookupLast_append,
        lookupLast_paramDict]
      by_cases hk : k ∈ args
      · simp [hk]
      · simp only [hk, if_false]
        rw [lookupLast_eq_listGet_of_nodup _ _ hkeys]
        show (match listGet outer.entries k with
              | some v => some v
              | none => listGet ([] : List (String × Obj)) k)
            = listGet outer.entries k
        cases listGet outer.entries k <;> rfl
    refine ⟨hmain, fun m w hm hmp hmo hmc => ⟨?_, ?_⟩⟩
    · rw [hmain m, if_neg hm]
      exact hmo
    · have hs : stripConst m = m := by simp [stripConst, hmp]
      simp only [Env.setitem, if_neg hmc, hs]
      exact listGet_listSet_self _ _ _

/-- Witness for C8 at a concrete input: a function with parameter `a`
defined over the root frame captures `a = Null` and the root bindings;
adding `m` to the outer frame afterwards binds it there but not in the
closure. -/
theorem closure_snapshot_isolation_witness :
    ((Env.initFrom (rootEnv.entries ++ paramDict ["a"])).1.getitem "a"
       = some Obj.null) ∧
    ((Env.initFrom (rootEnv.entries ++ paramDict ["a"])).1.getitem "print"
       = some Obj.printFn) ∧
    ((Env.initFrom (rootEnv.entries ++ paramDict ["a"])).1.getitem "m" = none) ∧
    ((rootEnv.setitem "m" (.number 7)).1.getitem "m" = some (.number 7)) := by
  have h := closure_snapshot_isolation rootEnv ["a"] (.atom .null)
    { env := (Env.initFrom (rootEnv.entries ++ paramDict ["a"])).1,
      args := ["a"], expr := .atom .null }
    (by decide) (by decide) (by decide) rfl
  refine ⟨(h.1 "a").trans (by decide), (h.1 "print").trans (by decide),
    ?_, ?_⟩
  · exact ((h.2 "m" (.number 7) (by decide) (by decide) (by decide)
      (by decide)).1)
  · exact ((h.2 "m" (.number 7) (by decide) (by decide) (by decide)
      (by decide)).2)

end EchoStar
